import Mathlib

/-!
Shallow embedding of the bitshares_toolkit sources: the JSON-RPC client
(`src/libraries/rpc/rpc_client.cpp`) and the DPOS design
(`src/unnamed/part_000`, a doxygen module whose pseudocode and prose are the
only implementation present in the repository).
-/

namespace BtsToolkit

/-! ## JSON-RPC client (`rpc_client.cpp`)

`fc::variant` values travelling over the JSON connection. -/

inductive Variant where
  | vnull : Variant
  | vbool : Bool → Variant
  | vint : Int → Variant
  | vstr : String → Variant
  deriving DecidableEq, Repr

/-- Decoding a `call<bool>` reply; a non-boolean reply is a decode failure. -/
def Variant.asBool : Variant → Option Bool
  | .vbool b => some b
  | _ => none

/-- The JSON connection, abstracted as the reply the remote server gives to a
method name and an argument list. -/
def JsonConnection : Type := String → List Variant → Variant

/-- A remote endpoint (host:port). -/
def Endpoint : Type := String

/-- The network environment: which connection `connect_to` obtains from an
endpoint. -/
def Network : Type := Endpoint → JsonConnection

/-- `detail::rpc_client_impl`: owns the json connection. -/
structure RpcClientImpl where
  json_connection : JsonConnection

namespace RpcClientImpl

/-- `rpc_client_impl::connect_to`: opens a socket to the endpoint and installs
the resulting json connection. -/
def connect_to (_my : RpcClientImpl) (net : Network) (remote_endpoint : Endpoint) :
    RpcClientImpl :=
  { json_connection := net remote_endpoint }

/-- `rpc_client_impl::login`: `_json_connection->call<bool>("login", username, password)`. -/
def login (my : RpcClientImpl) (username password : String) : Option Bool :=
  (my.json_connection "login" [Variant.vstr username, Variant.vstr password]).asBool

/-- `rpc_client_impl::transfer`: `call<transaction_id_type>("transfer", variant(amount), (string)address)`. -/
def transfer (my : RpcClientImpl) (amount : Variant) (address : String) : Variant :=
  my.json_connection "transfer" [amount, Variant.vstr address]

/-- `rpc_client_impl::getbalance`: `call<asset>("getbalance", variant(asset_type))`. -/
def getbalance (my : RpcClientImpl) (asset_type : Variant) : Variant :=
  my.json_connection "getbalance" [asset_type]

/-- `rpc_client_impl::get_transaction`: `call<signed_transaction>("get_transaction", variant(transaction_id))`. -/
def get_transaction (my : RpcClientImpl) (transaction_id : Variant) : Variant :=
  my.json_connection "get_transaction" [transaction_id]

/-- `rpc_client_impl::getblock`: `call<signed_block_header>("getblock", variant(block_num))`. -/
def getblock (my : RpcClientImpl) (block_num : Nat) : Variant :=
  my.json_connection "getblock" [Variant.vint (Int.ofNat block_num)]

/-- `rpc_client_impl::validateaddress`: the source reads
`return _json_connection->call<bool>("getblock", fc::variant(address));` —
the method string sent over the wire is `"getblock"`, not `"validateaddress"`. -/
def validateaddress (my : RpcClientImpl) (address : String) : Option Bool :=
  (my.json_connection "getblock" [Variant.vstr address]).asBool

/-- `rpc_client_impl::import_bitcoin_wallet`: `call<bool>("import_bitcoin_wallet", wallet_filename.string(), password)`. -/
def import_bitcoin_wallet (my : RpcClientImpl) (wallet_filename password : String) :
    Option Bool :=
  (my.json_connection "import_bitcoin_wallet"
    [Variant.vstr wallet_filename, Variant.vstr password]).asBool

end RpcClientImpl

/-- `rpc_client`: the public class, owning `my : detail::rpc_client_impl`. -/
structure RpcClient where
  my : RpcClientImpl

namespace RpcClient

/-- `rpc_client::connect_to` forwards to `my->connect_to`. -/
def connect_to (c : RpcClient) (net : Network) (remote_endpoint : Endpoint) : RpcClient :=
  { my := c.my.connect_to net remote_endpoint }

/-- `rpc_client::login` forwards to `my->login`. -/
def login (c : RpcClient) (username password : String) : Option Bool :=
  c.my.login username password

/-- `rpc_client::transfer` forwards to `my->transfer`. -/
def transfer (c : RpcClient) (amount : Variant) (address : String) : Variant :=
  c.my.transfer amount address

/-- `rpc_client::getbalance` forwards to `my->getbalance`. -/
def getbalance (c : RpcClient) (asset_type : Variant) : Variant :=
  c.my.getbalance asset_type

/-- `rpc_client::get_transaction` forwards to `my->get_transaction`. -/
def get_transaction (c : RpcClient) (transaction_id : Variant) : Variant :=
  c.my.get_transaction transaction_id

/-- `rpc_client::getblock` forwards to `my->getblock`. -/
def getblock (c : RpcClient) (block_num : Nat) : Variant :=
  c.my.getblock block_num

/-- `rpc_client::validateaddress` forwards to `my->validateaddress`. -/
def validateaddress (c : RpcClient) (address : String) : Option Bool :=
  c.my.validateaddress address

/-- `rpc_client::import_bitcoin_wallet` forwards to `my->import_bitcoin_wallet`. -/
def import_bitcoin_wallet (c : RpcClient) (wallet_filename password : String) :
    Option Bool :=
  c.my.import_bitcoin_wallet wallet_filename password

end RpcClient

/-! ## Block producer schedule (`part_000`, section dpos_block_producer)

Literal translation of the pseudocode:
```
CURRENT_TIME    = UTC_SEC / BLOCK_INTERVAL
ROUND_TIME      = (CURRENT_TIME / 100) * 100
PRODUCE_TIME    = (ROUND_TIME + RANK) * BLOCK_INTERVAL
If PRODUCE_TIME < CURRENT_TIME then PRODUCE_TIME += 100 * BLOCK_INTERVAL
```
Note the guard compares `PRODUCE_TIME` (seconds) against `CURRENT_TIME`
(a slot count), exactly as written. -/

def CURRENT_TIME (UTC_SEC BLOCK_INTERVAL : Nat) : Nat :=
  UTC_SEC / BLOCK_INTERVAL

def ROUND_TIME (UTC_SEC BLOCK_INTERVAL : Nat) : Nat :=
  (CURRENT_TIME UTC_SEC BLOCK_INTERVAL / 100) * 100

def PRODUCE_TIME (UTC_SEC BLOCK_INTERVAL RANK : Nat) : Nat :=
  let pt := (ROUND_TIME UTC_SEC BLOCK_INTERVAL + RANK) * BLOCK_INTERVAL
  if pt < CURRENT_TIME UTC_SEC BLOCK_INTERVAL then pt + 100 * BLOCK_INTERVAL else pt

/-- Modelled from the spec: the §4.4 rewriting of the same schedule, which
compares against `utc_now` in seconds and bumps when
`produce_slot * BLOCK_INTERVAL ≤ utc_now`. -/
def produce_time_spec (utc_now block_interval rank : Nat) : Nat :=
  let slot_now := utc_now / block_interval
  let round_base := (slot_now / 100) * 100
  let produce_slot := round_base + rank
  let produce_slot := if produce_slot * block_interval ≤ utc_now then produce_slot + 100
    else produce_slot
  produce_slot * block_interval

/-! ## Data model (`part_000` sections dpos_assumptions, dpos_delegate_registration;
spec §3 and §4.1–§4.3 fill in the structures the prose names)

An unspent output carries exactly one vote: a signed delegate identifier whose
magnitude names the delegate and whose sign is the polarity. -/

structure Output where
  owner : Nat
  amount : Nat
  vote : Int
  age : Nat
  deriving DecidableEq, Repr

/-- A registered delegate (`claim_name_output` fields plus lifecycle). -/
structure Delegate where
  id : Nat
  name : String
  data : String
  registered_at : Nat
  expires_at : Nat
  resigned : Bool
  deriving DecidableEq, Repr

/-- Eligibility at a block height: registered, not resigned, not expired
(an expired entry is treated as resigned for ranking). -/
def Delegate.eligibleAt (d : Delegate) (height : Nat) : Bool :=
  !d.resigned && decide (height ≤ d.expires_at)

/-- Modelled from the spec: the committed state of the vote ledger (C1) and
delegate registry (C2); the repository contains only the design prose for
these components, no implementation. Unspent outputs are keyed by an output
identifier. -/
structure ChainState where
  utxos : List (Nat × Output)
  registry : List Delegate
  deriving DecidableEq, Repr

/-- Sum of amounts of unspent outputs voting FOR delegate `d` (positive vote of
magnitude `d`). -/
def posVotes (us : List (Nat × Output)) (d : Nat) : Nat :=
  (us.filter (fun e => decide (0 < e.2.vote) && decide (e.2.vote.natAbs = d))).foldl
    (fun a e => a + e.2.amount) 0

/-- Sum of amounts of unspent outputs voting AGAINST delegate `d`. -/
def negVotes (us : List (Nat × Output)) (d : Nat) : Nat :=
  (us.filter (fun e => decide (e.2.vote < 0) && decide (e.2.vote.natAbs = d))).foldl
    (fun a e => a + e.2.amount) 0

/-- Net votes of delegate `d`: for minus against. -/
def netVotes (us : List (Nat × Output)) (d : Nat) : Int :=
  (posVotes us d : Int) - (negVotes us d : Int)

/-- Look up an unspent output by id. -/
def lookupOut (us : List (Nat × Output)) (i : Nat) : Option Output :=
  (us.find? (fun e => e.1 = i)).map (fun e => e.2)

/-- Remove the output with identifier `i` from the unspent set. -/
def removeOut (us : List (Nat × Output)) (i : Nat) : List (Nat × Output) :=
  us.filter (fun e => e.1 ≠ i)

/-- A block, reduced to its consensus-relevant effects: the ids of the outputs
its transactions spend, the outputs they create, the producer that signed it,
and the delegate fee its final transaction pays the producer. -/
structure Block where
  spends : List Nat
  creates : List (Nat × Output)
  producer : Nat
  producerFee : Nat
  deriving DecidableEq, Repr

/-- The state a block leads to if accepted: all input spends and all output
creations applied together. -/
def blockPost (s : ChainState) (b : Block) : ChainState :=
  { utxos := (b.spends.foldl removeOut s.utxos) ++ b.creates
    registry := s.registry }

/-- No duplicate spend and no reference to an unknown output. -/
def spendsOk (s : ChainState) (b : Block) : Prop :=
  b.spends.Nodup ∧ ∀ i ∈ b.spends, (lookupOut s.utxos i).isSome = true

/-- I4: every created output votes for a delegate whose base identifier is
registered and not resigned. -/
def votesOk (s : ChainState) (b : Block) : Prop :=
  ∀ e ∈ b.creates, ∃ d ∈ s.registry, d.id = e.2.vote.natAbs ∧ d.resigned = false

/-- I2 / the 2% rule of dpos_assumptions: no eligible delegate may end up with
more than 2% of the vote in the post-block state. -/
def capOk (supply height : Nat) (s : ChainState) : Prop :=
  ∀ d ∈ s.registry, d.eligibleAt height = true → netVotes s.utxos d.id * 100 ≤ 2 * supply

/-- The producer must be the delegate the schedule authorizes for this slot. -/
def producerOk (expectedProducer : Nat) (b : Block) : Prop :=
  b.producer = expectedProducer

/-- dpos_block_validation: the last transaction may pay the producer up to 10%
of the average per-block revenue of the last 100 blocks. -/
def feeOk (avgRevenue : Nat) (b : Block) : Prop :=
  b.producerFee * 10 ≤ avgRevenue

/-- Every check other than the delegate-fee cap. -/
def nonFeeChecks (supply height expectedProducer : Nat) (s : ChainState) (b : Block) : Prop :=
  spendsOk s b ∧ votesOk s b ∧ capOk supply height (blockPost s b) ∧ producerOk expectedProducer b

instance (s : ChainState) (b : Block) : Decidable (spendsOk s b) := by
  unfold spendsOk; infer_instance

instance (s : ChainState) (b : Block) : Decidable (votesOk s b) := by
  unfold votesOk; infer_instance

instance (supply height : Nat) (s : ChainState) : Decidable (capOk supply height s) := by
  unfold capOk; infer_instance

instance (e : Nat) (b : Block) : Decidable (producerOk e b) := by
  unfold producerOk; infer_instance

instance (a : Nat) (b : Block) : Decidable (feeOk a b) := by
  unfold feeOk; infer_instance

instance (supply height e : Nat) (s : ChainState) (b : Block) :
    Decidable (nonFeeChecks supply height e s b) := by
  unfold nonFeeChecks; infer_instance

/-- Modelled from the spec: block application (C7 applying through C1/C2).
Validation failure at any rule yields `none`; on success the post state
commits whole. -/
def applyBlock (supply avgRevenue height expectedProducer : Nat) (s : ChainState)
    (b : Block) : Option ChainState :=
  if nonFeeChecks supply height expectedProducer s b ∧ feeOk avgRevenue b then
    some (blockPost s b)
  else
    none

/-- Committing a block: the new state on success, the untouched old state on
rejection. -/
def pushBlock (supply avgRevenue height expectedProducer : Nat) (s : ChainState)
    (b : Block) : ChainState :=
  (applyBlock supply avgRevenue height expectedProducer s b).getD s

/-- Insertion into a list sorted by the strict-or-equal test `le`. -/
def insertOrd (le : α → α → Bool) (a : α) : List α → List α
  | [] => [a]
  | b :: l => if le a b then a :: b :: l else b :: insertOrd le a l

/-- Insertion sort by `le`. -/
def sortOrd (le : α → α → Bool) : List α → List α
  | [] => []
  | a :: l => insertOrd le a (sortOrd le l)

/-- Ranking order on eligible delegates: net votes descending, ties by lower
id, then lexicographic name (spec §3 RankedDelegates). -/
def delegateBefore (us : List (Nat × Output)) (a b : Delegate) : Bool :=
  decide (netVotes us b.id < netVotes us a.id) ||
    (decide (netVotes us a.id = netVotes us b.id) &&
      (decide (a.id < b.id) || (decide (a.id = b.id) && decide (a.name ≤ b.name))))

/-- The ranking index (C3): eligible delegates sorted by the ranking order. -/
def rankedDelegates (height : Nat) (s : ChainState) : List Nat :=
  (sortOrd (delegateBefore s.utxos) (s.registry.filter (fun d => d.eligibleAt height))).map
    (fun d => d.id)

/-- Modelled from the spec: the committed states — a genesis state satisfying
the cap invariant, closed under accepted blocks. -/
inductive Committed (supply avgRevenue height : Nat) : ChainState → Prop where
  | genesis : ∀ s : ChainState, capOk supply height s → Committed supply avgRevenue height s
  | step : ∀ (s s2 : ChainState) (expectedProducer : Nat) (b : Block),
      Committed supply avgRevenue height s →
      applyBlock supply avgRevenue height expectedProducer s b = some s2 →
      Committed supply avgRevenue height s2

/-! ## Vote ledger bucket operations (spec §4.1)

Modelled from the spec: the repository has no vote-ledger implementation;
§4.1 defines `apply_spend` / `apply_create` as arithmetic on the
`(positive, negative)` buckets of `|output.vote|`. -/

/-- The derived tally: `|DelegateId| → (positive, negative)`. -/
def VoteTally : Type := Nat → Int × Int

/-- The bucket contribution of one output: its amount in the positive or
negative bucket of `|vote|`, according to the sign of `vote`. -/
def voteDelta (o : Output) (d : Nat) : Int × Int :=
  if d = o.vote.natAbs then
    if 0 ≤ o.vote then ((o.amount : Int), 0) else (0, (o.amount : Int))
  else (0, 0)

/-- Modelled from the spec: §4.1 `apply_spend(output)` subtracts
`output.amount` from the bucket of `|output.vote|` selected by the sign. -/
def apply_spend (t : VoteTally) (o : Output) : VoteTally :=
  fun d => t d - voteDelta o d

/-- Modelled from the spec: §4.1 `apply_create(output)` adds `output.amount`
to the bucket of `|output.vote|` selected by the sign. -/
def apply_create (t : VoteTally) (o : Output) : VoteTally :=
  fun d => t d + voteDelta o d

/-- A block seen as ledger effects: the outputs it spends and the outputs it
creates. -/
structure TallyBlock where
  spends : List Output
  creates : List Output
  deriving DecidableEq, Repr

/-- The inverse of a block: each spend replaced by the corresponding create
and each create by the corresponding spend. -/
def TallyBlock.inverse (b : TallyBlock) : TallyBlock :=
  { spends := b.creates, creates := b.spends }

/-- Applying a block to the vote ledger: spend all inputs, create all
outputs. -/
def applyTallyBlock (t : VoteTally) (b : TallyBlock) : VoteTally :=
  b.creates.foldl apply_create (b.spends.foldl apply_spend t)

/-- Applying a block to the pair (vote ledger C1, delegate registry C2):
spends and creates touch only the ledger; registrations are a separate
transaction kind. -/
def applyTallyState (p : VoteTally × List Delegate) (b : TallyBlock) :
    VoteTally × List Delegate :=
  (applyTallyBlock p.1 b, p.2)

/-- Validity of a block at the ledger level: every created output votes for a
registered, unresigned delegate, and no unresigned delegate exceeds the 2%
cap in the post state. -/
def tallyBlockValid (supply : Nat) (reg : List Delegate) (t : VoteTally)
    (b : TallyBlock) : Prop :=
  (∀ o ∈ b.creates, ∃ d ∈ reg, d.id = o.vote.natAbs ∧ d.resigned = false) ∧
    ∀ d ∈ reg, d.resigned = false →
      (applyTallyBlock t b d.id).1 - (applyTallyBlock t b d.id).2 ≤ 2 * supply

instance (supply : Nat) (reg : List Delegate) (t : VoteTally) (b : TallyBlock) :
    Decidable (tallyBlockValid supply reg t b) := by
  unfold tallyBlockValid; infer_instance

/-! ## Wallet voting algorithm (`part_000` section dpos_voting_algorithm)

Picking the one delegate a transaction votes for, and the inputs it takes
votes from. -/

/-- The wallet's trust state. -/
structure WalletTrust where
  trusted_delegates : List Nat
  distrusted_delegates : List Nat
  deriving DecidableEq, Repr

/-- The vote a generated transaction carries, as a signed delegate id:
1. against the highest-ranked distrusted delegate in the top 200, if any;
2. else for the trusted delegate with the lowest rank;
3. else for the highest-scoring observed delegate with less than 1% of the
vote (`observed` arrives sorted by score, best first). -/
def chooseVote (ranked : List Nat) (w : WalletTrust) (observed : List Nat)
    (net : Nat → Int) (supply : Nat) : Option Int :=
  match (ranked.take 200).find? (fun d => w.distrusted_delegates.contains d) with
  | some d => some (-(d : Int))
  | none =>
    match ranked.reverse.find? (fun d => w.trusted_delegates.contains d) with
    | some t => some (t : Int)
    | none =>
      (observed.find? (fun d => decide (net d * 100 < supply))).map (fun d => (d : Int))

/-- An output the input selection must take: it votes for a distrusted
delegate, or it is more than eleven months old (`elevenMonths` is the age
threshold in the same block-height unit as `Output.age`; `now` is the current
height). -/
def mandatoryInput (distrusted : List Nat) (now elevenMonths : Nat) (o : Output) : Bool :=
  distrusted.contains o.vote.natAbs || decide (o.age + elevenMonths < now)

/-- Oldest-first order on outputs (lower creation height = older). -/
def olderFirst (a b : Output) : Bool :=
  decide (a.age ≤ b.age)

/-- Greedy selection from an oldest-first candidate list until `need` is
covered. -/
def takeUntil (need : Nat) : List Output → List Output
  | [] => []
  | o :: rest => if need = 0 then [] else o :: takeUntil (need - o.amount) rest

/-- Total amount of a list of outputs. -/
def sumAmounts (l : List Output) : Nat :=
  l.foldl (fun a o => a + o.amount) 0

/-- Input selection for an outgoing transaction needing `need`:
all mandatory outputs (distrust-voting or stale), then the oldest remaining
outputs until the needed amount is covered. -/
def selectInputs (outs : List Output) (distrusted : List Nat)
    (now elevenMonths need : Nat) : List Output :=
  outs.filter (mandatoryInput distrusted now elevenMonths) ++
    takeUntil (need - sumAmounts (outs.filter (mandatoryInput distrusted now elevenMonths)))
      (sortOrd olderFirst (outs.filter (fun o => !mandatoryInput distrusted now elevenMonths o)))

/-! ## Fees (`part_000` sections dpos_delegate_registration, dpos_block_validation) -/

/-- The signup fee: 100 times the average revenue per block. -/
def registrationFee (avgRevenue : ℚ) : ℚ :=
  100 * avgRevenue

/-- The maximum per-block payment to the producer: 10% of the average
per-block revenue of the last 100 blocks. -/
def maxDelegateFee (avgRevenue : ℚ) : ℚ :=
  avgRevenue / 10

/-! ## Concrete scenario data (spec §8) -/

/-- Delegate D of the cap-enforcement scenario. -/
def delegateD : Delegate :=
  { id := 1, name := "D", data := "", registered_at := 0, expires_at := 10000,
    resigned := false }

/-- A second registered delegate. -/
def delegateE : Delegate :=
  { id := 2, name := "E", data := "", registered_at := 0, expires_at := 10000,
    resigned := false }

/-- State with total supply 1,000,000 in which delegate D holds net 19,500. -/
def capState : ChainState :=
  { utxos := [(0, { owner := 7, amount := 19500, vote := 1, age := 0 })]
    registry := [delegateD] }

/-- A single-transaction block adding `amt` of votes for delegate D. -/
def capTx (amt : Nat) : Block :=
  { spends := [], creates := [(1, { owner := 7, amount := amt, vote := 1, age := 5 })]
    producer := 0, producerFee := 0 }

/-- The empty state of the fee-cap scenario. -/
def emptyState : ChainState :=
  { utxos := [], registry := [] }

/-- A block whose final transaction pays the producer `f`. -/
def feeBlock (f : Nat) : Block :=
  { spends := [], creates := [], producer := 0, producerFee := f }

/-- First output voting for delegate A (= id 1) in the input-selection scenario. -/
def outputA1 : Output := { owner := 0, amount := 10, vote := 1, age := 3 }

/-- Second output voting for delegate A. -/
def outputA2 : Output := { owner := 0, amount := 20, vote := 1, age := 7 }

/-- Output voting for delegate B (= id 2). -/
def outputB : Output := { owner := 0, amount := 30, vote := 2, age := 5 }

/-- The zero tally. -/
def tallyZero : VoteTally := fun _ => (0, 0)

/-- Block of the round-trip scenario: one spend, two creates. -/
def blockRT : TallyBlock :=
  { spends := [{ owner := 7, amount := 100, vote := 1, age := 0 }]
    creates := [{ owner := 7, amount := 60, vote := 1, age := 5 },
                { owner := 8, amount := 40, vote := -2, age := 5 }] }

/-! ## Helper lemmas -/

/-- A successful `find?` splits the list at the first hit. -/
theorem find?_decomp {α : Type} (p : α → Bool) :
    ∀ (l : List α) (x : α), l.find? p = some x →
      p x = true ∧ ∃ u v, l = u ++ x :: v ∧ ∀ y ∈ u, p y = false := by
  intro l
  induction l with
  | nil => intro x h; simp [List.find?] at h
  | cons a t ih =>
    intro x h
    by_cases ha : p a = true
    · rw [List.find?_cons_of_pos _ ha] at h
      cases h
      exact ⟨ha, [], t, rfl, by simp⟩
    · rw [List.find?_cons_of_neg _ ha] at h
      obtain ⟨hx, u, v, hl, hu⟩ := ih x h
      refine ⟨hx, a :: u, v, by rw [hl]; rfl, ?_⟩
      intro y hy
      rcases List.mem_cons.mp hy with h1 | h2
      · rw [h1]; exact Bool.eq_false_iff.mpr ha
      · exact hu y h2

/-- A block accepted by `applyBlock` satisfies the cap in its post state. -/
theorem capOk_of_applyBlock {supply avg height ep : Nat} {s s2 : ChainState} {b : Block}
    (h : applyBlock supply avg height ep s b = some s2) : capOk supply height s2 := by
  unfold applyBlock at h
  split at h
  · rename_i hcond
    cases h
    exact hcond.1.2.2.1
  · cases h

/-- `insertOrd` permutes the cons. -/
theorem insertOrd_perm {α : Type} (le : α → α → Bool) (a : α) :
    ∀ l : List α, (insertOrd le a l).Perm (a :: l) := by
  intro l
  induction l with
  | nil => exact List.Perm.refl _
  | cons b t ih =>
    unfold insertOrd
    by_cases h : le a b = true
    · rw [if_pos h]
    · rw [if_neg h]
      exact (List.Perm.cons b ih).trans (List.Perm.swap a b t)

/-- `sortOrd` permutes its input. -/
theorem sortOrd_perm {α : Type} (le : α → α → Bool) :
    ∀ l : List α, (sortOrd le l).Perm l := by
  intro l
  induction l with
  | nil => exact List.Perm.refl _
  | cons a t ih =>
    exact (insertOrd_perm le a (sortOrd le t)).trans (List.Perm.cons a ih)

/-- Inserting into an age-sorted list of outputs keeps it age-sorted. -/
theorem insertOrd_age_sorted (a : Output) :
    ∀ l : List Output, List.Pairwise (fun x y => x.age ≤ y.age) l →
      List.Pairwise (fun x y => x.age ≤ y.age) (insertOrd olderFirst a l) := by
  intro l
  induction l with
  | nil => intro _; simp [insertOrd]
  | cons b t ih =>
    intro hs
    rw [List.pairwise_cons] at hs
    unfold insertOrd
    by_cases h : olderFirst a b = true
    · rw [if_pos h]
      have hab : a.age ≤ b.age := of_decide_eq_true h
      refine List.pairwise_cons.mpr ⟨?_, List.pairwise_cons.mpr hs⟩
      intro y hy
      rcases List.mem_cons.mp hy with h1 | h2
      · rw [h1]; exact hab
      · exact le_trans hab (hs.1 y h2)
    · rw [if_neg h]
      have hba : b.age ≤ a.age := by
        have := of_decide_eq_false (Bool.eq_false_iff.mpr h)
        omega
      refine List.pairwise_cons.mpr ⟨?_, ih hs.2⟩
      intro y hy
      have hy2 : y ∈ a :: t := (insertOrd_perm olderFirst a t).mem_iff.mp hy
      rcases List.mem_cons.mp hy2 with h1 | h2
      · rw [h1]; exact hba
      · exact hs.1 y h2

/-- `sortOrd olderFirst` sorts outputs oldest first. -/
theorem sortOrd_age_sorted :
    ∀ l : List Output, List.Pairwise (fun x y => x.age ≤ y.age) (sortOrd olderFirst l) := by
  intro l
  induction l with
  | nil => simp [sortOrd]
  | cons a t ih => exact insertOrd_age_sorted a (sortOrd olderFirst t) ih

/-- `takeUntil` selects a literal front segment of its candidate list. -/
theorem takeUntil_eq_take :
    ∀ (need : Nat) (l : List Output), ∃ k, takeUntil need l = l.take k := by
  intro need l
  induction l generalizing need with
  | nil => exact ⟨0, rfl⟩
  | cons o t ih =>
    by_cases h : need = 0
    · exact ⟨0, by simp [takeUntil, h]⟩
    · obtain ⟨k, hk⟩ := ih (need - o.amount)
      exact ⟨k + 1, by simp [takeUntil, h, hk]⟩

/-- Folding `apply_create` adds the summed per-output deltas pointwise. -/
theorem foldl_apply_create (d : Nat) :
    ∀ (l : List Output) (t : VoteTally),
      (l.foldl apply_create t) d = t d + (l.map (fun o => voteDelta o d)).sum := by
  intro l
  induction l with
  | nil => intro t; simp
  | cons o u ih =>
    intro t
    rw [List.foldl_cons, ih, List.map_cons, List.sum_cons]
    show t d + voteDelta o d + _ = _
    rw [add_assoc]

/-- Folding `apply_spend` subtracts the summed per-output deltas pointwise. -/
theorem foldl_apply_spend (d : Nat) :
    ∀ (l : List Output) (t : VoteTally),
      (l.foldl apply_spend t) d = t d - (l.map (fun o => voteDelta o d)).sum := by
  intro l
  induction l with
  | nil => intro t; simp
  | cons o u ih =>
    intro t
    rw [List.foldl_cons, ih, List.map_cons, List.sum_cons]
    show t d - voteDelta o d - _ = _
    rw [sub_sub]

/-! ## Claim theorems -/

/-- C1: `rpc_client::validateaddress` is claimed to perform a single JSON-RPC
call whose method name is `"validateaddress"`. The source instead sends the
method name `"getblock"`: against a server that answers `true` exactly to the
method `"validateaddress"`, the call returns `false`, while a server that
answers `true` exactly to `"getblock"` makes it return `true`. -/
theorem validateaddress_sends_method_getblock :
    (RpcClient.mk ⟨fun m _ => Variant.vbool (m == "validateaddress")⟩).validateaddress
        "1myaddress" = some false ∧
      (RpcClient.mk ⟨fun m _ => Variant.vbool (m == "getblock")⟩).validateaddress
        "1myaddress" = some true := by
  exact ⟨rfl, rfl⟩

/-- C2: evaluation of the block-producer schedule. The literal pseudocode of
dpos_block_producer (which compares `PRODUCE_TIME`, in seconds, against
`CURRENT_TIME`, a slot count) reproduces the three rank values at
`utc_now = 1,000,000` but yields `1,000,030` — an already-elapsed slot — for
rank 3 at `utc_now = 1,000,500`, where the claim expects `1,001,030`. The
§4.4 rewriting with the `≤ utc_now` guard yields `1,001,030` there but
`1,001,000` instead of the claimed `1,000,000` at rank 0. -/
theorem dpos_block_producer_schedule_eval :
    PRODUCE_TIME 1000000 10 0 = 1000000 ∧
      PRODUCE_TIME 1000000 10 5 = 1000050 ∧
      PRODUCE_TIME 1000000 10 99 = 1000990 ∧
      PRODUCE_TIME 1000500 10 3 = 1000030 ∧
      produce_time_spec 1000500 10 3 = 1001030 ∧
      produce_time_spec 1000000 10 0 = 1001000 := by
  exact ⟨rfl, rfl, rfl, rfl, rfl, rfl⟩

/-- C10: every public method of `rpc_client` returns exactly the value of the
identically named method of its owned `detail::rpc_client_impl`, with all
arguments passed through unchanged. -/
theorem rpc_client_forwards_to_impl :
    (∀ (c : RpcClient) (net : Network) (ep : Endpoint),
        (c.connect_to net ep).my = c.my.connect_to net ep) ∧
      (∀ (c : RpcClient) (username password : String),
        c.login username password = c.my.login username password) ∧
      (∀ (c : RpcClient) (amount : Variant) (address : String),
        c.transfer amount address = c.my.transfer amount address) ∧
      (∀ (c : RpcClient) (asset_type : Variant),
        c.getbalance asset_type = c.my.getbalance asset_type) ∧
      (∀ (c : RpcClient) (transaction_id : Variant),
        c.get_transaction transaction_id = c.my.get_transaction transaction_id) ∧
      (∀ (c : RpcClient) (block_num : Nat),
        c.getblock block_num = c.my.getblock block_num) ∧
      (∀ (c : RpcClient) (address : String),
        c.validateaddress address = c.my.validateaddress address) ∧
      (∀ (c : RpcClient) (wallet_filename password : String),
        c.import_bitcoin_wallet wallet_filename password =
          c.my.import_bitcoin_wallet wallet_filename password) := by
  exact ⟨fun _ _ _ => rfl, fun _ _ _ => rfl, fun _ _ _ => rfl, fun _ _ => rfl,
    fun _ _ => rfl, fun _ _ => rfl, fun _ _ => rfl, fun _ _ _ => rfl⟩

/-- C3: in every committed state every eligible delegate holds at most 2% of
the total supply in net votes; a block whose post state would exceed the
bound is rejected; with supply 1,000,000 and delegate D at net 19,500, the
transaction raising D to 20,001 is rejected and the one raising D to exactly
20,000 is accepted. -/
theorem vote_cap_invariant (supply avgRevenue height : Nat) (s : ChainState)
    (hc : Committed supply avgRevenue height s) :
    capOk supply height s ∧
      (∀ (expectedProducer : Nat) (b : Block),
        ¬ capOk supply height (blockPost s b) →
        applyBlock supply avgRevenue height expectedProducer s b = none) ∧
      applyBlock 1000000 1000 100 0 capState (capTx 501) = none ∧
      (applyBlock 1000000 1000 100 0 capState (capTx 500)).isSome = true := by
  refine ⟨?_, ?_, by decide, by decide⟩
  · induction hc with
    | genesis s h => exact h
    | step s s2 ep b hcom h ih => exact capOk_of_applyBlock h
  · intro ep b hnc
    unfold applyBlock
    rw [if_neg]
    intro hcond
    exact hnc hcond.1.2.2.1

/-- C3 witness: the theorem applied to the genesis scenario state. -/
theorem vote_cap_invariant_witness :
    capOk 1000000 100 capState ∧
      applyBlock 1000000 1000 100 0 capState (capTx 501) = none ∧
      (applyBlock 1000000 1000 100 0 capState (capTx 500)).isSome = true :=
  ⟨(vote_cap_invariant 1000000 1000 100 capState
      (Committed.genesis capState (by decide))).1,
    (vote_cap_invariant 1000000 1000 100 capState
      (Committed.genesis capState (by decide))).2.2⟩

/-- C4: block application is atomic. On any validation failure the committed
state — and with it the vote ledger, the registry and the ranking index — is
exactly the old one; on success the spends, creates and registry carry over
together. -/
theorem block_application_atomic (supply avgRevenue height expectedProducer : Nat)
    (s : ChainState) (b : Block) :
    (applyBlock supply avgRevenue height expectedProducer s b = none →
      pushBlock supply avgRevenue height expectedProducer s b = s ∧
        rankedDelegates height (pushBlock supply avgRevenue height expectedProducer s b) =
          rankedDelegates height s) ∧
      (∀ s2, applyBlock supply avgRevenue height expectedProducer s b = some s2 →
        pushBlock supply avgRevenue height expectedProducer s b = s2 ∧
          s2.utxos = (b.spends.foldl removeOut s.utxos) ++ b.creates ∧
          s2.registry = s.registry) := by
  constructor
  · intro h
    have hp : pushBlock supply avgRevenue height expectedProducer s b = s := by
      unfold pushBlock
      rw [h]
      rfl
    exact ⟨hp, by rw [hp]⟩
  · intro s2 h
    have hp : pushBlock supply avgRevenue height expectedProducer s b = s2 := by
      unfold pushBlock
      rw [h]
      rfl
    unfold applyBlock at h
    split at h
    · cases h
      exact ⟨hp, rfl, rfl⟩
    · cases h

/-- C4 witness: a rejected overpaying block leaves the empty state untouched;
the accepted cap-scenario block commits its create. -/
theorem block_application_atomic_witness :
    (pushBlock 1000000 1000 100 0 emptyState (feeBlock 101) = emptyState ∧
      rankedDelegates 100 (pushBlock 1000000 1000 100 0 emptyState (feeBlock 101)) =
        rankedDelegates 100 emptyState) ∧
      (pushBlock 1000000 1000 100 0 capState (capTx 500) = blockPost capState (capTx 500) ∧
        (blockPost capState (capTx 500)).utxos =
          ((capTx 500).spends.foldl removeOut capState.utxos) ++ (capTx 500).creates ∧
        (blockPost capState (capTx 500)).registry = capState.registry) :=
  ⟨(block_application_atomic 1000000 1000 100 0 emptyState (feeBlock 101)).1 (by decide),
    (block_application_atomic 1000000 1000 100 0 capState (capTx 500)).2
      (blockPost capState (capTx 500)) (by decide)⟩

/-- C7: with every other validation rule satisfied, a block is accepted
exactly when the producer payment of its final transaction is at most 10% of
the average per-block revenue; with average 1000, paying 100 is accepted and
paying 101 is rejected. -/
theorem delegate_fee_cap (supply avgRevenue height expectedProducer : Nat)
    (s : ChainState) (b : Block)
    (hother : nonFeeChecks supply height expectedProducer s b) :
    ((applyBlock supply avgRevenue height expectedProducer s b).isSome = true ↔
        b.producerFee * 10 ≤ avgRevenue) ∧
      (applyBlock 1000000 1000 100 0 emptyState (feeBlock 100)).isSome = true ∧
      applyBlock 1000000 1000 100 0 emptyState (feeBlock 101) = none := by
  refine ⟨?_, by decide, by decide⟩
  unfold applyBlock
  by_cases hf : feeOk avgRevenue b
  · rw [if_pos ⟨hother, hf⟩]
    exact ⟨fun _ => hf, fun _ => rfl⟩
  · rw [if_neg (fun hcond => hf hcond.2)]
    constructor
    · intro hs
      simp at hs
    · intro hle
      exact absurd hle hf

/-- C7 witness: the theorem applied at the fee-cap scenario. -/
theorem delegate_fee_cap_witness :
    ((applyBlock 1000000 1000 100 0 emptyState (feeBlock 100)).isSome = true ↔
        (feeBlock 100).producerFee * 10 ≤ 1000) ∧
      (applyBlock 1000000 1000 100 0 emptyState (feeBlock 100)).isSome = true ∧
      applyBlock 1000000 1000 100 0 emptyState (feeBlock 101) = none :=
  delegate_fee_cap 1000000 1000 100 0 emptyState (feeBlock 100) (by decide)

/-- C5: if a distrusted delegate sits in the top 200 of the ranking, the
wallet votes against the one with the highest current rank (every distrusted
delegate ranked above it would have been found first); otherwise it votes for
the trusted delegate with the lowest current rank (every trusted delegate
ranked below it would have been found first from the bottom); with trusted
delegates at ranks 5 and 80 and no distrusted delegate in the top 200, the
vote goes to the delegate at rank 80. -/
theorem wallet_vote_target (ranked : List Nat) (w : WalletTrust) (observed : List Nat)
    (net : Nat → Int) (supply : Nat) :
    (∀ d0, (ranked.take 200).find? (fun d => w.distrusted_delegates.contains d) = some d0 →
      chooseVote ranked w observed net supply = some (-(d0 : Int)) ∧
        w.distrusted_delegates.contains d0 = true ∧
        ∃ u v, ranked.take 200 = u ++ d0 :: v ∧
          ∀ e ∈ u, w.distrusted_delegates.contains e = false) ∧
      ((ranked.take 200).find? (fun d => w.distrusted_delegates.contains d) = none →
        ∀ t0, ranked.reverse.find? (fun d => w.trusted_delegates.contains d) = some t0 →
        chooseVote ranked w observed net supply = some (t0 : Int) ∧
          w.trusted_delegates.contains t0 = true ∧
          ∃ u v, ranked = u ++ t0 :: v ∧ ∀ e ∈ v, w.trusted_delegates.contains e = false) ∧
      chooseVote (List.range 100) ⟨[5, 80], []⟩ [] (fun _ => 0) 1000000 = some 80 := by
  refine ⟨?_, ?_, by decide⟩
  · intro d0 h
    obtain ⟨hp, u, v, hl, hu⟩ := find?_decomp _ _ _ h
    refine ⟨?_, hp, u, v, hl, hu⟩
    unfold chooseVote
    rw [h]
  · intro hn t0 ht
    obtain ⟨hp, u, v, hl, hu⟩ := find?_decomp _ _ _ ht
    have hr : ranked = v.reverse ++ t0 :: u.reverse := by
      calc ranked = ranked.reverse.reverse := (List.reverse_reverse ranked).symm
        _ = (u ++ t0 :: v).reverse := by rw [hl]
        _ = v.reverse ++ t0 :: u.reverse := by
            simp [List.reverse_append, List.append_assoc]
    refine ⟨?_, hp, v.reverse, u.reverse, hr, ?_⟩
    · unfold chooseVote
      rw [hn, ht]
    · intro e he
      exact hu e (List.mem_reverse.mp he)

/-- C5 witness: on the ranking [3, 7] with delegate 7 distrusted, the vote is
against delegate 7. -/
theorem wallet_vote_target_witness :
    chooseVote [3, 7] ⟨[], [7]⟩ [] (fun _ => 0) 100 = some (-(7 : Int)) :=
  ((wallet_vote_target [3, 7] ⟨[], [7]⟩ [] (fun _ => 0) 100).1 7 rfl).1

/-- C6: input selection takes every unspent output voting for a distrusted
delegate and every output older than eleven months; the remaining selection
is an oldest-first front segment of the leftover candidates (which the
selector keeps as an age-sorted permutation of them); the wallet holding
outputs voting A, A, B with A distrusted spends both A-voting outputs. -/
theorem wallet_input_selection (outs : List Output) (distrusted : List Nat)
    (now elevenMonths need : Nat) :
    (∀ o ∈ outs, distrusted.contains o.vote.natAbs = true →
        o ∈ selectInputs outs distrusted now elevenMonths need) ∧
      (∀ o ∈ outs, o.age + elevenMonths < now →
        o ∈ selectInputs outs distrusted now elevenMonths need) ∧
      (∃ k, selectInputs outs distrusted now elevenMonths need =
          outs.filter (mandatoryInput distrusted now elevenMonths) ++
            (sortOrd olderFirst
              (outs.filter (fun o => !mandatoryInput distrusted now elevenMonths o))).take k) ∧
      List.Pairwise (fun x y => x.age ≤ y.age)
        (sortOrd olderFirst
          (outs.filter (fun o => !mandatoryInput distrusted now elevenMonths o))) ∧
      (sortOrd olderFirst
          (outs.filter (fun o => !mandatoryInput distrusted now elevenMonths o))).Perm
        (outs.filter (fun o => !mandatoryInput distrusted now elevenMonths o)) ∧
      selectInputs [outputA1, outputA2, outputB] [1] 100 1000 0 = [outputA1, outputA2] := by
  refine ⟨?_, ?_, ?_, sortOrd_age_sorted _, sortOrd_perm _ _, by decide⟩
  · intro o ho hd
    unfold selectInputs
    refine List.mem_append_left _ (List.mem_filter.mpr ⟨ho, ?_⟩)
    unfold mandatoryInput
    rw [hd]
    rfl
  · intro o ho hage
    unfold selectInputs
    refine List.mem_append_left _ (List.mem_filter.mpr ⟨ho, ?_⟩)
    unfold mandatoryInput
    rw [decide_eq_true hage]
    exact Bool.or_true _
  · obtain ⟨k, hk⟩ := takeUntil_eq_take
      (need - sumAmounts (outs.filter (mandatoryInput distrusted now elevenMonths)))
      (sortOrd olderFirst (outs.filter (fun o => !mandatoryInput distrusted now elevenMonths o)))
    exact ⟨k, by unfold selectInputs; rw [hk]⟩

/-- C6 witness: the first A-voting output is among the selected inputs of the
scenario. -/
theorem wallet_input_selection_witness :
    outputA1 ∈ selectInputs [outputA1, outputA2, outputB] [1] 100 1000 0 :=
  (wallet_input_selection [outputA1, outputA2, outputB] [1] 100 1000 0).1 outputA1
    (by decide) (by decide)

/-- C8: with a registration fee of 100 times the average per-block revenue
and per-block producer income capped at 10% of that average, any sequence of
per-block payments that recoups the fee spans at least 1000 blocks, for every
positive average revenue. -/
theorem delegate_break_even (avgRevenue : ℚ) (n : Nat) (pay : Nat → ℚ)
    (hpos : 0 < avgRevenue)
    (hcap : ∀ i, pay i ≤ maxDelegateFee avgRevenue)
    (hrecoup : registrationFee avgRevenue ≤ ∑ i in Finset.range n, pay i) :
    1000 ≤ n := by
  simp only [maxDelegateFee] at hcap
  simp only [registrationFee] at hrecoup
  have hsum : ∑ i in Finset.range n, pay i ≤ (n : ℚ) * (avgRevenue / 10) := by
    calc ∑ i in Finset.range n, pay i
        ≤ ∑ _i in Finset.range n, avgRevenue / 10 :=
          Finset.sum_le_sum fun i _ => hcap i
      _ = (n : ℚ) * (avgRevenue / 10) := by
          rw [Finset.sum_const, Finset.card_range, nsmul_eq_mul]
  have h1 : (100 : ℚ) * avgRevenue ≤ (n : ℚ) * (avgRevenue / 10) := le_trans hrecoup hsum
  have h2 : (1000 : ℚ) * avgRevenue ≤ (n : ℚ) * avgRevenue := by linarith
  have h3 : (1000 : ℚ) ≤ (n : ℚ) := le_of_mul_le_mul_right h2 hpos
  exact_mod_cast h3

/-- C8 witness: a delegate earning the full cap of 1 per block on average
revenue 10 needs exactly 1000 blocks. -/
theorem delegate_break_even_witness : 1000 ≤ 1000 :=
  delegate_break_even 10 1000 (fun _ => 1) (by norm_num)
    (fun _i => by norm_num [maxDelegateFee])
    (by simp [registrationFee, Finset.sum_const, Finset.card_range]; norm_num)

/-- C9: applying a block to the vote ledger and the registry and then its
inverse (each spend replaced by the corresponding create and each create by
the corresponding spend) restores both exactly. -/
theorem block_round_trip (supply : Nat) (reg : List Delegate) (t : VoteTally)
    (b : TallyBlock) (_hv : tallyBlockValid supply reg t b) :
    (∀ d, (applyTallyState (applyTallyState (t, reg) b) b.inverse).1 d = t d) ∧
      (applyTallyState (applyTallyState (t, reg) b) b.inverse).2 = reg := by
  refine ⟨?_, rfl⟩
  intro d
  show applyTallyBlock (applyTallyBlock t b) b.inverse d = t d
  unfold applyTallyBlock TallyBlock.inverse
  simp only [foldl_apply_create, foldl_apply_spend]
  abel

/-- C9 witness: the round-trip at the concrete scenario block, read at
delegate 1. -/
theorem block_round_trip_witness :
    (applyTallyState (applyTallyState (tallyZero, [delegateD, delegateE]) blockRT)
        blockRT.inverse).1 1 = tallyZero 1 ∧
      (applyTallyState (applyTallyState (tallyZero, [delegateD, delegateE]) blockRT)
        blockRT.inverse).2 = [delegateD, delegateE] :=
  ⟨(block_round_trip 1000000 [delegateD, delegateE] tallyZero blockRT (by decide)).1 1,
    (block_round_trip 1000000 [delegateD, delegateE] tallyZero blockRT (by decide)).2⟩

end BtsToolkit
